import Mathlib

/-!
Shallow embedding of the swat trigger engine (Go package `profile`).

Conventions of the embedding:
* a `time.Time` is an `Int`, the number of nanoseconds measured from Go's
  zero `time.Time` (so `t.IsZero()` becomes `t = 0`);
* a `time.Duration` is an `Int`, a number of nanoseconds;
* the callback `fn` and the capacity-one `closer` channel of the source
  `Scheduler` are modelled by the worker/stopper transition system further
  below; the pure schedule fields, `validate`, `resolveSleep`,
  `isActivated` and `getUntil` are translated directly.
-/

namespace Swat

/-- The instant `time.Unix(1<<62, 0)` returned by `Scheduler.getUntil`
when neither `length` nor `until` is set, expressed in nanoseconds from
Go's zero time (the Unix epoch lies 62135596800 seconds after it). -/
def sentinel : Int := (62135596800 + 2 ^ 62) * 1000000000

/-- The schedule fields of the `Scheduler` struct (scheduler.go).
`at` is a Lean keyword, so the field is `at'`; `until` is kept in the
same style as `until'`. -/
structure Scheduler where
  at' : Int := 0
  after : Int := 0
  every : Int := 0
  length : Int := 0
  until' : Int := 0
  deriving DecidableEq, Repr

/-- `newScheduler` (scheduler.go): all schedule fields start at their
zero values. -/
def newScheduler : Scheduler := {}

/-- `Scheduler.After` (scheduler.go): plain field assignment. -/
def Scheduler.After (s : Scheduler) (d : Int) : Scheduler := { s with after := d }

/-- `Scheduler.Every` (scheduler.go): plain field assignment. -/
def Scheduler.Every (s : Scheduler) (d : Int) : Scheduler := { s with every := d }

/-- `Scheduler.At` (scheduler.go): plain field assignment. -/
def Scheduler.At (s : Scheduler) (t : Int) : Scheduler := { s with at' := t }

/-- `Scheduler.For` (scheduler.go): plain field assignment. -/
def Scheduler.For (s : Scheduler) (d : Int) : Scheduler := { s with length := d }

/-- `Scheduler.Until` (scheduler.go): plain field assignment. -/
def Scheduler.Until (s : Scheduler) (t : Int) : Scheduler := { s with until' := t }

/-- The three configuration errors `Scheduler.validate` can return
(scheduler.go lines 70-84), as an enumeration instead of the Go error
strings. -/
inductive SwatError
  | atAfterBoth
  | untilForBoth
  | everyRequired
  deriving DecidableEq, Repr

/-- `Scheduler.validate` (scheduler.go lines 70-84): the three checks in
source order.  `!s.at.IsZero()` is `s.at' ≠ 0`, `s.after > 0` is
`0 < s.after`, and so on. -/
def Scheduler.validate (s : Scheduler) : Option SwatError :=
  if s.at' ≠ 0 ∧ 0 < s.after then some .atAfterBoth
  else if s.until' ≠ 0 ∧ 0 < s.length then some .untilForBoth
  else if (0 < s.length ∨ s.until' ≠ 0) ∧ s.every = 0 then some .everyRequired
  else none

/-- `Scheduler.resolveSleep` (scheduler.go lines 95-103), with the current
time passed explicitly: `s.at.Sub(time.Now())` becomes `s.at' - now`. -/
def Scheduler.resolveSleep (s : Scheduler) (now : Int) : Int :=
  if 0 < s.after then s.after
  else if s.at' ≠ 0 then s.at' - now
  else 0

/-- `Scheduler.isActivated` (scheduler.go lines 107-111). -/
def Scheduler.isActivated (s : Scheduler) : Bool :=
  0 < s.after || s.at' ≠ 0 || 0 < s.every

/-- `Scheduler.getUntil` (scheduler.go lines 114-124), with the current
time (the instant the worker evaluates it, right after the initial sleep)
passed explicitly. -/
def Scheduler.getUntil (s : Scheduler) (now : Int) : Int :=
  if 0 < s.length then now + s.length
  else if s.until' ≠ 0 then s.until'
  else sentinel

/-- Field presence as the code tests it: `At` is set when the stored
instant is not the zero `time.Time`. -/
def atSet (s : Scheduler) : Prop := s.at' ≠ 0

/-- Field presence as the code tests it: `After` is set when the stored
duration is positive (`s.after > 0` is the test `validate`,
`resolveSleep` and `isActivated` all use). -/
def afterSet (s : Scheduler) : Prop := 0 < s.after

/-- Field presence as the code tests it: `For` is set when the stored
duration is positive. -/
def forSet (s : Scheduler) : Prop := 0 < s.length

/-- Field presence as the code tests it: `Until` is set when the stored
instant is not the zero `time.Time`. -/
def untilSet (s : Scheduler) : Prop := s.until' ≠ 0

/-- Field presence as the code tests it: `validate` treats `Every` as
absent exactly when the stored duration is zero (`s.every == 0`). -/
def everySet (s : Scheduler) : Prop := s.every ≠ 0

/-- Claim C3: `validate()` returns an error exactly when `At` and `After`
are both set, or `Until` and `For` are both set, or `For` or `Until` is
set while `Every` is not; every other configuration is accepted. -/
theorem C3_validate_error_iff (s : Scheduler) :
    s.validate ≠ none ↔
      (atSet s ∧ afterSet s) ∨ (untilSet s ∧ forSet s) ∨
        ((forSet s ∨ untilSet s) ∧ ¬ everySet s) := by
  unfold Scheduler.validate atSet afterSet untilSet forSet everySet
  split
  · simp_all
  · split
    · simp_all
    · split
      · simp_all [not_not]
      · simp_all

/-- Claim C9: `After(0)` is equivalent to never calling `After`: a zero
`after` can never trip the `At`+`After` rejection (validation reduces to
the two remaining checks), contributes nothing to `isActivated`, and is
ignored by `resolveSleep`. -/
theorem C9_after_zero_is_unset (s : Scheduler) (now : Int) :
    ((s.After 0).validate =
      if s.until' ≠ 0 ∧ 0 < s.length then some .untilForBoth
      else if (0 < s.length ∨ s.until' ≠ 0) ∧ s.every = 0 then some .everyRequired
      else none)
    ∧ (s.After 0).isActivated = (s.at' ≠ 0 || 0 < s.every)
    ∧ (s.After 0).resolveSleep now = (if s.at' ≠ 0 then s.at' - now else 0) := by
  refine ⟨?_, ?_, ?_⟩
  · simp [Scheduler.After, Scheduler.validate]
  · simp [Scheduler.After, Scheduler.isActivated]
  · simp [Scheduler.After, Scheduler.resolveSleep]

/-! ## Output target (targeter.go)

The targeter owns at most one file handle (`closer`, an `io.Closer` set by
`ToFile`).  File handles are modelled by a small file-system state `FS`:
`os.Create` hands out fresh handle ids, and closing follows the documented
`os.File.Close` behaviour — closing an open handle closes the underlying
descriptor once, closing an already-closed handle returns an error and
does not touch the descriptor again.  The list `closes` logs every actual
descriptor close, so "closed exactly once" is a statement about counts in
that log. -/

/-- The destination installed in the targeter's `writer` field: either an
externally owned `io.Writer` (`ToWriter`) or a file handle opened by
`ToFile`. -/
inductive Sink
  | external (tag : Nat)
  | file (id : Nat)
  deriving DecidableEq, Repr

/-- File-system state backing `os.Create` / `os.File.Close`:
`nextId` is the next fresh handle id, `openIds` the handles currently
open, `created` logs each successful `os.Create` with its path, and
`closes` logs each actual descriptor close. -/
structure FS where
  nextId : Nat := 0
  openIds : List Nat := []
  created : List (Nat × String) := []
  closes : List Nat := []
  deriving DecidableEq, Repr

/-- `os.Create(path)`: the environment decides success via `ok`.  On
success a fresh open handle is returned; on failure the state is
untouched. -/
def FS.create (fs : FS) (path : String) (ok : Bool) : FS × Option Nat :=
  if ok then
    ({ nextId := fs.nextId + 1, openIds := fs.nextId :: fs.openIds,
       created := (fs.nextId, path) :: fs.created, closes := fs.closes },
     some fs.nextId)
  else (fs, none)

/-- `os.File.Close` on handle `id`: closes the descriptor (logging it in
`closes`) when the handle is open; returns an error and changes nothing
when it was already closed. -/
def FS.close (fs : FS) (id : Nat) : FS × Option String :=
  if id ∈ fs.openIds then
    ({ fs with openIds := fs.openIds.erase id, closes := id :: fs.closes },
     none)
  else (fs, some "file already closed")

/-- The `targeter` struct (targeter.go): a destination `writer` and an
optional owned file handle `closer`. -/
structure targeter where
  writer : Option Sink := none
  closer : Option Nat := none
  deriving DecidableEq, Repr

/-- `targeter.ToWriter` (targeter.go): installs an external sink; the
owned `closer` is untouched. -/
def targeter.ToWriter (t : targeter) (w : Sink) : targeter :=
  { t with writer := some w }

/-- `targeter.ToFile` (targeter.go lines 20-29): `os.Create` the path; on
failure return the error leaving the targeter unchanged; on success
install the new file as both the sink and the owned resource. -/
def targeter.ToFile (t : targeter) (fs : FS) (path : String) (ok : Bool) :
    targeter × FS × Option String :=
  match fs.create path ok with
  | (fs', some id) => ({ writer := some (.file id), closer := some id }, fs', none)
  | (fs', none) => (t, fs', some ("create failed: " ++ path))

/-- `targeter.end` (targeter.go lines 31-35): if an owned resource exists,
call `Close` on it (the returned error is discarded, as in the source);
the `closer` field itself is not cleared.  `end` is a Lean keyword, hence
the prime. -/
def targeter.end' (t : targeter) (fs : FS) : FS :=
  match t.closer with
  | some id => (fs.close id).1
  | none => fs

/-- `n` successive calls of `targeter.end'` (the action's `End` may be
called multiple times; the targeter value itself is never mutated by
`end`). -/
def iterEnd (t : targeter) : Nat → FS → FS
  | 0, fs => fs
  | n + 1, fs => iterEnd t n (t.end' fs)

/-- Well-formedness of a file-system state: every open or closed handle
id was handed out earlier, so `nextId` is fresh. -/
def FSWF (fs : FS) : Prop :=
  (∀ i ∈ fs.openIds, i < fs.nextId) ∧ (∀ i ∈ fs.closes, i < fs.nextId)

lemma end_closer_none (t : targeter) (fs : FS) (h : t.closer = none) :
    t.end' fs = fs := by
  simp [targeter.end', h]

lemma end_already_closed (t : targeter) (fs : FS) (id : Nat)
    (h : t.closer = some id) (h2 : id ∉ fs.openIds) : t.end' fs = fs := by
  simp [targeter.end', h, FS.close, h2]

lemma iterEnd_already_closed (t : targeter) (id : Nat)
    (h : t.closer = some id) :
    ∀ (n : Nat) (fs : FS), id ∉ fs.openIds → iterEnd t n fs = fs := by
  intro n
  induction n with
  | zero => intro fs _; rfl
  | succ m ih =>
      intro fs h2
      have he : t.end' fs = fs := end_already_closed t fs id h h2
      simp [iterEnd, he, ih fs h2]

/-- Claim C5: after a successful `ToFile`, any positive number of `end`
calls closes the owned descriptor exactly once; and `end` is a no-op both
when no resource is owned and when the owned resource was already
closed. -/
theorem C5_release_exactly_once (t0 : targeter) (fs0 : FS) (p : String)
    (n : Nat) (hWF : FSWF fs0) (hn : 1 ≤ n) :
    ((iterEnd (t0.ToFile fs0 p true).1 n (t0.ToFile fs0 p true).2.1).closes.count
        fs0.nextId = 1)
    ∧ (∀ (t : targeter) (fs : FS), t.closer = none → t.end' fs = fs)
    ∧ (∀ (t : targeter) (fs : FS) (id : Nat),
        t.closer = some id → id ∉ fs.openIds → t.end' fs = fs) := by
  refine ⟨?_, end_closer_none, end_already_closed⟩
  obtain ⟨m, rfl⟩ : ∃ m, n = m + 1 := by
    refine ⟨n - 1, ?_⟩; omega
  set N := fs0.nextId with hN
  have hto :
      t0.ToFile fs0 p true =
        ({ writer := some (.file N), closer := some N },
         { nextId := N + 1, openIds := N :: fs0.openIds,
           created := (N, p) :: fs0.created, closes := fs0.closes },
         none) := by
    simp [targeter.ToFile, FS.create, hN]
  rw [hto]
  have hNopen : N ∉ fs0.openIds := fun hmem => absurd (hWF.1 N hmem) (by omega)
  have hNclosed : N ∉ fs0.closes := fun hmem => absurd (hWF.2 N hmem) (by omega)
  have hend :
      targeter.end' { writer := some (.file N), closer := some N }
        { nextId := N + 1, openIds := N :: fs0.openIds,
          created := (N, p) :: fs0.created, closes := fs0.closes } =
        { nextId := N + 1, openIds := fs0.openIds,
          created := (N, p) :: fs0.created, closes := N :: fs0.closes } := by
    simp [targeter.end', FS.close]
  simp only [iterEnd, hend]
  rw [iterEnd_already_closed _ N rfl m
    { nextId := N + 1, openIds := fs0.openIds,
      created := (N, p) :: fs0.created, closes := N :: fs0.closes } hNopen]
  simp [List.count_cons, List.count_eq_zero_of_not_mem hNclosed]

/-- Witness for C5 at a concrete run: fresh targeter and file system, one
`ToFile`, two `end` calls. -/
theorem C5_release_exactly_once_witness :
    FSWF {} ∧ 1 ≤ 2 ∧
      ((iterEnd (targeter.ToFile {} {} "out" true).1 2
          (targeter.ToFile {} {} "out" true).2.1).closes.count
        (FS.nextId {}) = 1) := by
  refine ⟨?_, ?_, ?_⟩
  · exact ⟨by simp, by simp⟩
  · decide
  · exact (C5_release_exactly_once {} {} "out" 2 ⟨by simp, by simp⟩ (by decide)).1

/-- Claim C10: when `ToFile` succeeds twice with different paths, the
second call overwrites both the sink and the owned resource without
closing the first file; afterwards any number of `end` calls closes only
the most recently installed file (exactly once when `1 ≤ n`), and the
first file is never closed by the target — it stays open and never
appears in the close log. -/
theorem C10_second_tofile_leaks_first (t0 : targeter) (fs0 : FS)
    (p1 p2 : String) (n : Nat) (hWF : FSWF fs0) (hp : p1 ≠ p2) :
    (t0.ToFile fs0 p1 true).2.2 = none
    ∧ ((t0.ToFile fs0 p1 true).1.ToFile (t0.ToFile fs0 p1 true).2.1 p2 true).2.2 = none
    ∧ ((t0.ToFile fs0 p1 true).1.ToFile (t0.ToFile fs0 p1 true).2.1 p2 true).1.writer
        = some (.file (fs0.nextId + 1))
    ∧ ((t0.ToFile fs0 p1 true).1.ToFile (t0.ToFile fs0 p1 true).2.1 p2 true).1.closer
        = some (fs0.nextId + 1)
    ∧ fs0.nextId ∈
        ((t0.ToFile fs0 p1 true).1.ToFile (t0.ToFile fs0 p1 true).2.1 p2 true).2.1.openIds
    ∧ (iterEnd ((t0.ToFile fs0 p1 true).1.ToFile (t0.ToFile fs0 p1 true).2.1 p2 true).1 n
          ((t0.ToFile fs0 p1 true).1.ToFile (t0.ToFile fs0 p1 true).2.1 p2 true).2.1).closes.count
        fs0.nextId = 0
    ∧ fs0.nextId ∈
        (iterEnd ((t0.ToFile fs0 p1 true).1.ToFile (t0.ToFile fs0 p1 true).2.1 p2 true).1 n
          ((t0.ToFile fs0 p1 true).1.ToFile (t0.ToFile fs0 p1 true).2.1 p2 true).2.1).openIds
    ∧ (1 ≤ n →
        (iterEnd ((t0.ToFile fs0 p1 true).1.ToFile (t0.ToFile fs0 p1 true).2.1 p2 true).1 n
          ((t0.ToFile fs0 p1 true).1.ToFile (t0.ToFile fs0 p1 true).2.1 p2 true).2.1).closes.count
        (fs0.nextId + 1) = 1) := by
  set N := fs0.nextId with hN
  have hto1 :
      t0.ToFile fs0 p1 true =
        ({ writer := some (.file N), closer := some N },
         { nextId := N + 1, openIds := N :: fs0.openIds,
           created := (N, p1) :: fs0.created, closes := fs0.closes },
         none) := by
    simp [targeter.ToFile, FS.create, hN]
  have hto2 :
      targeter.ToFile { writer := some (.file N), closer := some N }
        { nextId := N + 1, openIds := N :: fs0.openIds,
          created := (N, p1) :: fs0.created, closes := fs0.closes } p2 true =
        ({ writer := some (.file (N + 1)), closer := some (N + 1) },
         { nextId := N + 2, openIds := (N + 1) :: N :: fs0.openIds,
           created := (N + 1, p2) :: (N, p1) :: fs0.created, closes := fs0.closes },
         none) := by
    simp [targeter.ToFile, FS.create]
  rw [hto1]
  simp only [hto2]
  have hNopen : N ∉ fs0.openIds := fun hmem => absurd (hWF.1 N hmem) (by omega)
  have hN1open : N + 1 ∉ fs0.openIds := fun hmem => absurd (hWF.1 (N + 1) hmem) (by omega)
  have hNclosed : N ∉ fs0.closes := fun hmem => absurd (hWF.2 N hmem) (by omega)
  have hN1closed : N + 1 ∉ fs0.closes := fun hmem => absurd (hWF.2 (N + 1) hmem) (by omega)
  have hend :
      targeter.end' { writer := some (.file (N + 1)), closer := some (N + 1) }
        { nextId := N + 2, openIds := (N + 1) :: N :: fs0.openIds,
          created := (N + 1, p2) :: (N, p1) :: fs0.created, closes := fs0.closes } =
        { nextId := N + 2, openIds := N :: fs0.openIds,
          created := (N + 1, p2) :: (N, p1) :: fs0.created,
          closes := (N + 1) :: fs0.closes } := by
    simp [targeter.end', FS.close]
  have hstable : ∀ m : Nat,
      iterEnd { writer := some (.file (N + 1)), closer := some (N + 1) } m
        { nextId := N + 2, openIds := N :: fs0.openIds,
          created := (N + 1, p2) :: (N, p1) :: fs0.created,
          closes := (N + 1) :: fs0.closes } =
      { nextId := N + 2, openIds := N :: fs0.openIds,
        created := (N + 1, p2) :: (N, p1) :: fs0.created,
        closes := (N + 1) :: fs0.closes } := by
    intro m
    refine iterEnd_already_closed _ (N + 1) rfl m _ ?_
    intro hmem
    rcases List.mem_cons.mp hmem with h | h
    · omega
    · exact hN1open h
  refine ⟨by simp, by simp, by simp, by simp, by simp, ?_, ?_, ?_⟩
  · cases n with
    | zero => simpa [iterEnd] using List.count_eq_zero_of_not_mem hNclosed
    | succ m =>
        simp only [iterEnd, hend, hstable m]
        simp [List.count_cons, List.count_eq_zero_of_not_mem hNclosed]
  · cases n with
    | zero => simp [iterEnd]
    | succ m => simp only [iterEnd, hend, hstable m]; simp
  · intro hn
    obtain ⟨m, rfl⟩ : ∃ m, n = m + 1 := ⟨n - 1, by omega⟩
    simp only [iterEnd, hend, hstable m]
    simp [List.count_cons, List.count_eq_zero_of_not_mem hN1closed]

/-- Witness for C10 at a concrete run: fresh targeter and file system,
two `ToFile` calls with distinct paths, two `end` calls. -/
theorem C10_second_tofile_leaks_first_witness :
    FSWF {} ∧ "a" ≠ "b" ∧
      (iterEnd ((targeter.ToFile {} {} "a" true).1.ToFile
          (targeter.ToFile {} {} "a" true).2.1 "b" true).1 2
        ((targeter.ToFile {} {} "a" true).1.ToFile
          (targeter.ToFile {} {} "a" true).2.1 "b" true).2.1).closes.count
        (FS.nextId {}) = 0 := by
  refine ⟨⟨by simp, by simp⟩, by decide, ?_⟩
  exact (C10_second_tofile_leaks_first {} {} "a" "b" 2
    ⟨by simp, by simp⟩ (by decide)).2.2.2.2.2.1

/-! ## The worker / stopper handshake (scheduler.go `start` and `end`)

`Scheduler.start` runs as a goroutine whose every exit path performs the
deferred `s.closer <- true` (the completion marker), and `Scheduler.end`
runs `select { case <-s.closer: ; case s.closer <- true: <-s.closer }` on
the same capacity-one buffered channel.  The two routines are modelled as
an interleaving transition system:

* `WPhase.waiting` — the worker is parked in one of its two `select`s
  (the initial wait of lines 137-141 or the interval wait of lines
  151-155), racing the channel against a timer;
* `WPhase.running` — the worker is executing the loop body (the cutoff
  check and `s.fn()` of lines 144-148);
* `WPhase.posting` — the worker has returned and is executing the
  deferred `s.closer <- true` (lines 127-129);
* `WPhase.dead` — the goroutine has exited.

The channel is `Option Bool` (empty or holding one value); a send to a
full channel blocks.  `timer` records whether the wait the worker is
currently parked in can still elapse; when the worker re-enters an
interval wait a fresh timer is armed.  `fired` counts calls of `s.fn`.
Which loop path `running` takes (cutoff reached, one-shot return, or
re-entering the interval wait) depends on clock values the system leaves
nondeterministic, so `running` has all three successors. -/

/-- Control point of the `Scheduler.start` goroutine. -/
inductive WPhase
  | waiting
  | running
  | posting
  | dead
  deriving DecidableEq, Repr

/-- Control point of a `Scheduler.end` caller: `idle` (no `end` call in
progress), `selecting` (at the two-way `select`), `recvWait` (sent the
stop request, now blocked in the trailing `<-s.closer`), `done`
(returned). -/
inductive SPhase
  | idle
  | selecting
  | recvWait
  | done
  deriving DecidableEq, Repr

/-- A configuration of the interleaved worker/stopper system. -/
structure Config where
  worker : WPhase
  stopper : SPhase
  chan : Option Bool
  timer : Bool
  fired : Nat
  deriving DecidableEq, Repr

/-- All one-step successors of a configuration, per Go channel semantics:
a `select` takes any ready case; a receive is ready when the buffer holds
a value; a send is ready when the buffer has space; a send to a full
buffer blocks. -/
def next (c : Config) : List Config :=
  (match c.worker with
   | .waiting =>
       (if c.timer then [{ c with worker := .running, timer := false }] else []) ++
       (match c.chan with
        | some _ => [{ c with worker := .posting, chan := none }]
        | none => [])
   | .running =>
       [{ c with worker := .posting },
        { c with worker := .posting, fired := c.fired + 1 },
        { c with worker := .waiting, timer := true, fired := c.fired + 1 }]
   | .posting =>
       (match c.chan with
        | none => [{ c with worker := .dead, chan := some true }]
        | some _ => [])
   | .dead => []) ++
  (match c.stopper with
   | .idle => []
   | .selecting =>
       (match c.chan with
        | some _ => [{ c with stopper := .done, chan := none }]
        | none => [{ c with stopper := .recvWait, chan := some true }])
   | .recvWait =>
       (match c.chan with
        | some _ => [{ c with stopper := .done, chan := none }]
        | none => [])
   | .done => [])

/-- One interleaving step. -/
def StepTo (a b : Config) : Prop := b ∈ next a

/-- Reachability along interleaving steps. -/
def Reaches (a b : Config) : Prop := Relation.ReflTransGen StepTo a b

lemma reaches_closed {R : Config → Prop}
    (hcl : ∀ a, R a → ∀ b ∈ next a, R b) :
    ∀ a b, R a → Reaches a b → R b := by
  intro a b ha h
  induction h with
  | refl => exact ha
  | tail _ h2 ih => exact hcl _ ih _ h2

/-- A rank that strictly decreases along every step of the `end`
scenarios below, bounding the length of every interleaving. -/
def rank (c : Config) : Nat :=
  (match c.worker with
   | .waiting => 2
   | .running => 2
   | .posting => 1
   | .dead => 0) +
  (match c.stopper with
   | .idle => 0
   | .selecting => 2
   | .recvWait => 1
   | .done => 0)

/-- The claim-C2 scenario without restriction: the worker is parked in
its initial wait (no firing yet) when `end` starts its `select`, and the
wait's timer is still live — `time.After` may still beat the stop
request, exactly the race of the worker's `select` (scheduler.go lines
137-141). -/
def endDuringInitialWaitLive : Config :=
  { worker := .waiting, stopper := .selecting, chan := none, timer := true, fired := 0 }

/-- The scenario of claim C2 as amended: the worker is parked in its
initial wait (no firing yet) when `end` starts its `select`, under the
amendment's proviso that the initial wait does not elapse before the
worker takes the stop request — `timer := false` disables the
`time.After` branch of the worker's `select`, so only the
stop-request-first interleavings of `endDuringInitialWaitLive`
remain. -/
def endDuringInitialWait : Config :=
  { worker := .waiting, stopper := .selecting, chan := none, timer := false, fired := 0 }

/-- The configurations reachable from `endDuringInitialWait`. -/
def initialWaitReach : List Config :=
  [endDuringInitialWait,
   { worker := .waiting, stopper := .recvWait, chan := some true, timer := false, fired := 0 },
   { worker := .posting, stopper := .recvWait, chan := none, timer := false, fired := 0 },
   { worker := .waiting, stopper := .done, chan := none, timer := false, fired := 0 },
   { worker := .dead, stopper := .recvWait, chan := some true, timer := false, fired := 0 },
   { worker := .dead, stopper := .done, chan := none, timer := false, fired := 0 }]

/-- Claim C2, counterexample to the claim as stated: a complete
interleaving in which `end` is called while the worker is parked in its
initial wait, yet the wait elapses before the stopper's `select`
executes — the worker fires the callback once, exits, and `end` then
returns by consuming the completion marker.  The run ends in a quiescent
configuration with the stopper returned and `fired = 1`, refuting "the
callback is never invoked". -/
theorem C2_racy_firing_counterexample :
    Reaches endDuringInitialWaitLive
      { worker := .dead, stopper := .done, chan := none, timer := false, fired := 1 }
    ∧ ({ worker := .dead, stopper := .done, chan := none, timer := false,
         fired := 1 } : Config).fired = 1
    ∧ next { worker := .dead, stopper := .done, chan := none, timer := false,
             fired := 1 } = [] := by
  have h1 : StepTo endDuringInitialWaitLive
      { worker := .running, stopper := .selecting, chan := none, timer := false,
        fired := 0 } := by unfold StepTo; decide
  have h2 : StepTo
      { worker := .running, stopper := .selecting, chan := none, timer := false,
        fired := 0 }
      { worker := .posting, stopper := .selecting, chan := none, timer := false,
        fired := 1 } := by unfold StepTo; decide
  have h3 : StepTo
      { worker := .posting, stopper := .selecting, chan := none, timer := false,
        fired := 1 }
      { worker := .dead, stopper := .selecting, chan := some true, timer := false,
        fired := 1 } := by unfold StepTo; decide
  have h4 : StepTo
      { worker := .dead, stopper := .selecting, chan := some true, timer := false,
        fired := 1 }
      { worker := .dead, stopper := .done, chan := none, timer := false,
        fired := 1 } := by unfold StepTo; decide
  exact ⟨Relation.ReflTransGen.tail
    (Relation.ReflTransGen.tail
      (Relation.ReflTransGen.tail
        (Relation.ReflTransGen.tail Relation.ReflTransGen.refl h1) h2) h3) h4,
    rfl, rfl⟩

/-- Claim C2 as amended: when `end` is called while the worker is still
in its initial wait and the wait does not elapse before the worker takes
the stop request, every interleaving keeps the firing count at zero,
every quiescent configuration has the stopper returned, and every step
strictly decreases `rank` (runs from the scenario terminate within
`rank endDuringInitialWait = 4` steps — no deadlock). -/
theorem C2_end_before_first_firing :
    (∀ c, Reaches endDuringInitialWait c →
      c.fired = 0 ∧ (next c = [] → c.stopper = .done)) ∧
    (∀ c, Reaches endDuringInitialWait c → ∀ c' ∈ next c, rank c' < rank c) := by
  have hmem : ∀ c, Reaches endDuringInitialWait c → c ∈ initialWaitReach := by
    intro c h
    refine reaches_closed (R := fun x => x ∈ initialWaitReach) ?_ _ _ ?_ h
    · decide
    · decide
  have hall : ∀ x ∈ initialWaitReach,
      x.fired = 0 ∧ (next x = [] → x.stopper = .done) := by decide
  have hrank : ∀ x ∈ initialWaitReach, ∀ c' ∈ next x, rank c' < rank x := by decide
  exact ⟨fun c h => hall c (hmem c h), fun c h => hrank c (hmem c h)⟩

/-- Witness for C2 as amended: the reachability hypothesis discharged at
a complete four-step interleaving — stop request sent, taken by the
parked worker, completion marker posted, consumed by the stopper —
ending in the quiescent configuration with the stopper returned and zero
firings. -/
theorem C2_end_before_first_firing_witness :
    ({ worker := .dead, stopper := .done, chan := none, timer := false,
       fired := 0 } : Config).fired = 0
    ∧ (next { worker := .dead, stopper := .done, chan := none, timer := false,
              fired := 0 } = [] →
        ({ worker := .dead, stopper := .done, chan := none, timer := false,
           fired := 0 } : Config).stopper = .done) := by
  refine C2_end_before_first_firing.1 _ ?_
  have h1 : StepTo endDuringInitialWait
      { worker := .waiting, stopper := .recvWait, chan := some true, timer := false,
        fired := 0 } := by unfold StepTo; decide
  have h2 : StepTo
      { worker := .waiting, stopper := .recvWait, chan := some true, timer := false,
        fired := 0 }
      { worker := .posting, stopper := .recvWait, chan := none, timer := false,
        fired := 0 } := by unfold StepTo; decide
  have h3 : StepTo
      { worker := .posting, stopper := .recvWait, chan := none, timer := false,
        fired := 0 }
      { worker := .dead, stopper := .recvWait, chan := some true, timer := false,
        fired := 0 } := by unfold StepTo; decide
  have h4 : StepTo
      { worker := .dead, stopper := .recvWait, chan := some true, timer := false,
        fired := 0 }
      { worker := .dead, stopper := .done, chan := none, timer := false,
        fired := 0 } := by unfold StepTo; decide
  exact Relation.ReflTransGen.tail
    (Relation.ReflTransGen.tail
      (Relation.ReflTransGen.tail
        (Relation.ReflTransGen.tail Relation.ReflTransGen.refl h1) h2) h3) h4

/-- The control point at which `Scheduler.start` begins: an activated
scheduler parks in the initial-wait `select`; a non-activated one
returns at once, reaching the deferred completion send (scheduler.go
lines 131-135). -/
def initialWorker (s : Scheduler) : WPhase :=
  if s.isActivated then .waiting else .posting

/-- Claim C7: starting the worker of an inert scheduler (no `after`, no
`at`, no `every`): its single step is the deferred completion send — the
callback is never invoked, the completion marker is published, and the
goroutine exits. -/
theorem C7_inert_scheduler_completes_immediately (s : Scheduler)
    (h : s.isActivated = false) :
    next { worker := initialWorker s, stopper := .idle, chan := none,
           timer := false, fired := 0 } =
      [{ worker := .dead, stopper := .idle, chan := some true,
         timer := false, fired := 0 }]
    ∧ next { worker := .dead, stopper := .idle, chan := some true,
             timer := false, fired := 0 } = []
    ∧ (∀ c, Reaches { worker := initialWorker s, stopper := .idle, chan := none,
                      timer := false, fired := 0 } c → c.fired = 0) := by
  have hw : initialWorker s = .posting := by simp [initialWorker, h]
  rw [hw]
  refine ⟨rfl, rfl, ?_⟩
  intro c hr
  have : c ∈ [({ worker := .posting, stopper := .idle, chan := none,
                 timer := false, fired := 0 } : Config),
              { worker := .dead, stopper := .idle, chan := some true,
                timer := false, fired := 0 }] := by
    refine reaches_closed
      (R := fun x => x ∈ [({ worker := .posting, stopper := .idle, chan := none,
                             timer := false, fired := 0 } : Config),
                          { worker := .dead, stopper := .idle, chan := some true,
                            timer := false, fired := 0 }]) ?_ _ _ ?_ hr
    · decide
    · decide
  have hall : ∀ x ∈ [({ worker := .posting, stopper := .idle, chan := none,
                         timer := false, fired := 0 } : Config),
                      { worker := .dead, stopper := .idle, chan := some true,
                        timer := false, fired := 0 }], x.fired = 0 := by decide
  exact hall c this

/-- Witness for C7: the fresh scheduler is inert. -/
theorem C7_inert_scheduler_completes_immediately_witness :
    newScheduler.isActivated = false ∧
      next { worker := initialWorker newScheduler, stopper := .idle, chan := none,
             timer := false, fired := 0 } =
        [{ worker := .dead, stopper := .idle, chan := some true,
           timer := false, fired := 0 }] :=
  ⟨by decide, (C7_inert_scheduler_completes_immediately newScheduler (by decide)).1⟩

/-! ## Firing times of `Scheduler.start` under an ideal clock

With no stop request and an ideal clock (waits take exactly their nominal
duration, the callback takes no time), the loop of `Scheduler.start`
(scheduler.go lines 126-157) is deterministic.  `loopFirings` is the loop
of lines 144-156: at clock value `t` it checks `time.Now().Before(until)`,
fires, returns when `every == 0`, else sleeps `every`; `fuel` bounds the
number of iterations (the loop itself may be unbounded).  `runFirings`
is the whole of `start`: the activation check, the initial sleep
(`time.After` of a non-positive duration fires immediately, hence the
`max`), then `getUntil` evaluated at the post-sleep instant, then the
loop. -/

/-- The firing instants of the `for` loop of `Scheduler.start`, started
at clock value `t` with cutoff `cutoff` and interval `every`. -/
def loopFirings (every : Int) : Nat → Int → Int → List Int
  | 0, _, _ => []
  | fuel + 1, t, cutoff =>
    if t < cutoff then
      if every = 0 then [t]
      else t :: loopFirings every fuel (t + every) cutoff
    else []

/-- The firing instants of `Scheduler.start` launched at clock value
`now`, under an ideal clock and no stop request. -/
def runFirings (s : Scheduler) (now : Int) (fuel : Nat) : List Int :=
  if s.isActivated then
    let t1 := now + max (s.resolveSleep now) 0
    loopFirings s.every fuel t1 (s.getUntil t1)
  else []

/-- The number of loop iterations between clock value `t` and the cutoff
with positive interval `i`: the count of `k ≥ 0` with `t + k*i <
cutoff`. -/
def numFirings (t cutoff i : Int) : Nat :=
  if t < cutoff then (cutoff - 1 - t).toNat / i.toNat + 1 else 0

lemma numFirings_step (t cutoff i : Int) (hi : 0 < i) (ht : t < cutoff) :
    numFirings t cutoff i = numFirings (t + i) cutoff i + 1 := by
  have hI : 0 < i.toNat := by omega
  by_cases h2 : t + i < cutoff
  · have hge : i.toNat ≤ (cutoff - 1 - t).toNat := by omega
    have hsub : (cutoff - 1 - (t + i)).toNat = (cutoff - 1 - t).toNat - i.toNat := by
      omega
    have hdiv : (cutoff - 1 - t).toNat / i.toNat =
        ((cutoff - 1 - t).toNat - i.toNat) / i.toNat + 1 := by
      rw [Nat.div_eq]
      simp [hI, hge]
    simp [numFirings, ht, h2, hsub, hdiv]
  · have hlt : (cutoff - 1 - t).toNat < i.toNat := by omega
    simp [numFirings, ht, h2, Nat.div_eq_of_lt hlt]

lemma loopFirings_eq_map (i : Int) (hi : 0 < i) :
    ∀ (fuel : Nat) (t cutoff : Int), numFirings t cutoff i ≤ fuel →
      loopFirings i fuel t cutoff =
        (List.range (numFirings t cutoff i)).map (fun k : Nat => t + (k : Int) * i) := by
  intro fuel
  induction fuel with
  | zero =>
      intro t cutoff hn
      have h0 : numFirings t cutoff i = 0 := Nat.le_zero.mp hn
      simp [loopFirings, h0]
  | succ m ih =>
      intro t cutoff hn
      by_cases ht : t < cutoff
      · have hne : i ≠ 0 := by omega
        have hstep := numFirings_step t cutoff i hi ht
        have hm : numFirings (t + i) cutoff i ≤ m := by omega
        rw [hstep]
        simp only [loopFirings, if_pos ht, if_neg hne]
        rw [ih (t + i) cutoff hm, List.range_succ_eq_map]
        simp only [List.map_cons, List.map_map]
        congr 1
        · simp
        · apply List.map_congr_left
          intro k _
          simp only [Function.comp_apply]
          push_cast
          ring
      · have h0 : numFirings t cutoff i = 0 := by simp [numFirings, ht]
        simp [loopFirings, ht, h0]

/-- Claim C6 (confirmed as stated for genuine instants): a schedule
configured with `At(t)` alone fires exactly once — at `t`, or immediately
when `t` is already past — and never repeats.  `t ≠ 0` says `At` really
installed an instant (the zero `time.Time` means "unset" throughout the
code); the `sentinel` bounds keep the instants inside the epoch the
sentinel cutoff makes unreachable. -/
theorem C6_at_alone_fires_once (t now : Int) (fuel : Nat) (ht : t ≠ 0)
    (hts : t < sentinel) (hns : now < sentinel) (hfuel : 1 ≤ fuel) :
    runFirings (newScheduler.At t) now fuel = [max t now]
    ∧ (now ≤ t → runFirings (newScheduler.At t) now fuel = [t]) := by
  have hsval : newScheduler.At t =
      { at' := t, after := 0, every := 0, length := 0, until' := 0 } := rfl
  have hact : (newScheduler.At t).isActivated = true := by
    rw [hsval]
    simp [Scheduler.isActivated, ht]
  have hsleep : (newScheduler.At t).resolveSleep now = t - now := by
    rw [hsval]
    simp [Scheduler.resolveSleep, ht]
  have ht1 : now + max ((newScheduler.At t).resolveSleep now) 0 = max t now := by
    rw [hsleep]
    rcases le_total t now with h | h
    · rw [max_eq_right (by omega : t - now ≤ 0), max_eq_right h]; ring
    · rw [max_eq_left (by omega : (0:Int) ≤ t - now), max_eq_left h]; ring
  have huntil : (newScheduler.At t).getUntil (max t now) = sentinel := by
    rw [hsval]
    simp [Scheduler.getUntil]
  have hlt : max t now < sentinel := by
    rcases le_total t now with h | h
    · rwa [max_eq_right h]
    · rwa [max_eq_left h]
  obtain ⟨m, rfl⟩ : ∃ m, fuel = m + 1 := ⟨fuel - 1, by omega⟩
  have hevery : (newScheduler.At t).every = 0 := rfl
  have hmain : runFirings (newScheduler.At t) now (m + 1) = [max t now] := by
    unfold runFirings
    rw [hact]
    simp only [ht1, huntil, hevery]
    simp [loopFirings, hlt]
  exact ⟨hmain, fun hle => by rw [hmain, max_eq_left hle]⟩

/-- Witness for C6: `At 5` started at clock 3 fires once, at 5. -/
theorem C6_at_alone_fires_once_witness :
    (5 : Int) ≠ 0 ∧ (5 : Int) < sentinel ∧ (3 : Int) < sentinel ∧ 1 ≤ 1 ∧
      runFirings (newScheduler.At 5) 3 1 = [max 5 3] :=
  ⟨by decide, by decide, by decide, by decide,
   (C6_at_alone_fires_once 5 3 1 (by decide) (by decide) (by decide) (by decide)).1⟩

/-- Claim C4, counterexample to the stated firing count: for
`After(1).Every(2).For(4)` the worker fires at clock 1 and 3 only (the
instant `1 + 4 = 5` is not strictly before the cutoff 5), so there are 2
firings, while the spec formula `floor(f/i) + 1` gives `4/2 + 1 = 3`.
The stated count fails whenever `i` divides `f`. -/
theorem C4_count_formula_counterexample :
    ¬ ((runFirings (((newScheduler.After 1).Every 2).For 4) 0 10).length
        = (4 / 2 : Nat) + 1) := by
  decide

/-- Claim C4 as amended: for `After(d).Every(i).For(f)` with positive
`d`, `i`, `f` under an ideal clock, the firings are exactly
`now+d, now+d+i, now+d+2i, …` while strictly before `now+d+f`, and their
number is `floor((f-1)/i) + 1` (that is `ceil(f/i)`; it coincides with
the spec formula `floor(f/i) + 1` exactly when `i` does not divide
`f`). -/
theorem C4_after_every_for_firings (d i f now : Int) (fuel : Nat)
    (hd : 0 < d) (hi : 0 < i) (hf : 0 < f)
    (hfuel : (f - 1).toNat / i.toNat + 1 ≤ fuel) :
    runFirings (((newScheduler.After d).Every i).For f) now fuel
        = (List.range ((f - 1).toNat / i.toNat + 1)).map
            (fun k : Nat => now + d + (k : Int) * i)
    ∧ (∀ x ∈ runFirings (((newScheduler.After d).Every i).For f) now fuel,
        x < now + d + f)
    ∧ (runFirings (((newScheduler.After d).Every i).For f) now fuel).length
        = (f - 1).toNat / i.toNat + 1 := by
  have hsval : ((newScheduler.After d).Every i).For f =
      { at' := 0, after := d, every := i, length := f, until' := 0 } := rfl
  have hact : (((newScheduler.After d).Every i).For f).isActivated = true := by
    rw [hsval]
    simp only [Scheduler.isActivated, Bool.or_eq_true, decide_eq_true_eq]
    left; left; exact hd
  have hsleep : (((newScheduler.After d).Every i).For f).resolveSleep now = d := by
    rw [hsval]
    simp [Scheduler.resolveSleep, hd]
  have huntil : (((newScheduler.After d).Every i).For f).getUntil (now + d)
      = now + d + f := by
    rw [hsval]
    simp [Scheduler.getUntil, hf]
  have hnum : numFirings (now + d) (now + d + f) i
      = (f - 1).toNat / i.toNat + 1 := by
    have h1 : now + d < now + d + f := by omega
    have h2 : (now + d + f - 1 - (now + d)).toNat = (f - 1).toNat := by omega
    simp [numFirings, h1, h2]
  have hevery : (((newScheduler.After d).Every i).For f).every = i := rfl
  have hmain :
      runFirings (((newScheduler.After d).Every i).For f) now fuel
        = (List.range ((f - 1).toNat / i.toNat + 1)).map
            (fun k : Nat => now + d + (k : Int) * i) := by
    unfold runFirings
    rw [hact]
    simp only [hsleep, max_eq_left (le_of_lt hd), huntil, hevery]
    rw [loopFirings_eq_map i hi fuel (now + d) (now + d + f) (by rw [hnum]; exact hfuel),
      hnum]
    simp
  refine ⟨hmain, ?_, ?_⟩
  · intro x hx
    rw [hmain] at hx
    obtain ⟨k, hk, rfl⟩ := List.mem_map.mp hx
    have hk' : k ≤ (f - 1).toNat / i.toNat := by
      have := List.mem_range.mp hk
      omega
    have hkb : k * i.toNat ≤ (f - 1).toNat :=
      calc k * i.toNat ≤ ((f - 1).toNat / i.toNat) * i.toNat :=
            Nat.mul_le_mul_right _ hk'
        _ ≤ (f - 1).toNat := Nat.div_mul_le_self _ _
    have hcast : (k : Int) * i ≤ f - 1 := by
      have hi2 : ((i.toNat : Int)) = i := Int.toNat_of_nonneg (le_of_lt hi)
      have hf2 : (((f - 1).toNat : Int)) = f - 1 := Int.toNat_of_nonneg (by omega)
      have h3 := Int.ofNat_le.mpr hkb
      push_cast at h3
      rw [hi2, hf2] at h3
      exact h3
    omega
  · rw [hmain]
    simp

/-- Witness for C4 as amended: `After(1).Every(2).For(5)` started at 0
fires at 1, 3, 5 — three firings, `floor((5-1)/2)+1 = 3`. -/
theorem C4_after_every_for_firings_witness :
    (0 : Int) < 1 ∧ (0 : Int) < 2 ∧ (0 : Int) < 5 ∧
      ((5 : Int) - 1).toNat / (2 : Int).toNat + 1 ≤ 3 ∧
      runFirings (((newScheduler.After 1).Every 2).For 5) 0 3
        = (List.range (((5 : Int) - 1).toNat / (2 : Int).toNat + 1)).map
            (fun k : Nat => (0 : Int) + 1 + (k : Int) * 2) :=
  ⟨by decide, by decide, by decide, by decide,
   (C4_after_every_for_firings 1 2 5 0 3 (by decide) (by decide) (by decide)
      (by decide)).1⟩

/-! ## The base action (actions.go `BaseAction`)

`BaseAction` embeds the scheduler and the targeter (the signaler carries
no claim here and is elided), plus the sticky `lastErr` slot.  `Start`
either returns an error without launching anything, or — modelled by
`Except.ok ()` — installs the callback and launches the two trigger
goroutines. -/

/-- The error `BaseAction.Start` surfaces: the sticky configuration error
recorded during fluent setup (a failed `ToFile`), or the scheduler
validation error. -/
inductive StartError
  | config (msg : String)
  | invalid (e : SwatError)
  deriving DecidableEq, Repr

/-- The `BaseAction` struct (actions.go): scheduler, targeter and the
sticky first-error slot `lastErr`. -/
structure BaseAction where
  scheduler : Scheduler := {}
  targeter : targeter := {}
  lastErr : Option String := none
  deriving DecidableEq, Repr

/-- `BaseAction.ToFile` (actions.go): only when no earlier setup error
was recorded does it call the targeter's `ToFile` and store that call's
result (possibly `none`) in `lastErr`; otherwise both the action and the
file system are untouched. -/
def BaseAction.ToFile (b : BaseAction) (fs : FS) (path : String) (ok : Bool) :
    BaseAction × FS :=
  match b.lastErr with
  | none =>
      match b.targeter.ToFile fs path ok with
      | (t, fs', e) => ({ b with targeter := t, lastErr := e }, fs')
  | some _ => (b, fs)

/-- `BaseAction.Start` (actions.go): return the sticky error if one was
recorded; else return the scheduler validation error if any; else
(modelled by `.ok ()`) install the wrapped callback and launch the two
workers. -/
def BaseAction.Start (b : BaseAction) : Except StartError Unit :=
  match b.lastErr with
  | some e => .error (.config e)
  | none =>
      match b.scheduler.validate with
      | some e => .error (.invalid e)
      | none => .ok ()

/-- Claim C8: a sticky setup error is returned by `Start` as-is (so no
worker is launched), a later `ToFile` can never replace it, and when no
setup error was recorded `Start` surfaces exactly the scheduler
validation result. -/
theorem C8_start_sticky_error (b : BaseAction) :
    (∀ e, b.lastErr = some e → b.Start = .error (.config e))
    ∧ (∀ e, b.lastErr = some e → b.Start ≠ .ok ())
    ∧ (∀ e fs path ok, b.lastErr = some e →
        (b.ToFile fs path ok).1 = b ∧ (b.ToFile fs path ok).2 = fs)
    ∧ (b.lastErr = none → ∀ e, b.scheduler.validate = some e →
        b.Start = .error (.invalid e))
    ∧ (b.lastErr = none → b.scheduler.validate = none → b.Start = .ok ()) := by
  refine ⟨?_, ?_, ?_, ?_, ?_⟩
  · intro e he
    simp [BaseAction.Start, he]
  · intro e he
    simp [BaseAction.Start, he]
  · intro e fs path ok he
    exact ⟨by simp [BaseAction.ToFile, he], by simp [BaseAction.ToFile, he]⟩
  · intro he e hv
    simp [BaseAction.Start, he, hv]
  · intro he hv
    simp [BaseAction.Start, he, hv]

/-- Witness for C8: an action with a recorded setup error returns it from
`Start` and keeps it across another `ToFile`; a fresh action starts. -/
theorem C8_start_sticky_error_witness :
    BaseAction.Start { lastErr := some "boom" } = .error (.config "boom")
    ∧ (BaseAction.ToFile { lastErr := some "boom" } {} "p" true).1
        = { lastErr := some "boom" }
    ∧ BaseAction.Start {} = .ok () :=
  ⟨(C8_start_sticky_error { lastErr := some "boom" }).1 "boom" rfl,
   ((C8_start_sticky_error { lastErr := some "boom" }).2.2.1 "boom" {} "p" true rfl).1,
   (C8_start_sticky_error {}).2.2.2.2 rfl rfl⟩

end Swat
